import Mathlib

/-!
Verification development for the multi-objective flight-route core
(`atc.py`): graph construction (`build_air_route_graph`), path
enumeration and scoring (`dijkstra_multi_objective`), weather
perturbation (`simulate_weather_conditions`) and per-path metrics
(`analyze_path`).

Modelling conventions:
* Python floats are modelled as exact rationals `ℚ`; the source performs
  only sums, products and one division on these values, and the spec
  states the expected scores as exact decimals.
* `float("inf")` (the initial `best_score` and the no-path score) is
  modelled as `none : Option ℚ`; a finite score `s` is `some s`.
* Python exceptions are modelled with `Except`: the graph library raises
  `NodeNotFound` when the source or target node of a path query is
  missing (this exception is NOT a `NetworkXNoPath`, so the
  `except nx.NetworkXNoPath` clause in `dijkstra_multi_objective` never
  fires and the exception propagates); indexing a missing edge raises
  `KeyError`; dividing by an integer zero raises `ZeroDivisionError`.
* The module-global random stream used by `random.uniform` is modelled
  as an explicit stream `rand : Nat → ℚ` of unit draws in `[0, 1]`;
  `random.uniform a b` maps a unit draw `r` to `a + (b - a) * r`.
  `simulate_weather_conditions` consumes two draws per edge, in edge
  insertion order, duration first.
* CSV reading is performed by the out-of-scope dataset loader; the rows
  of `airports.csv` and `routes.csv` are modelled as lists of records
  with the columns the code reads.
-/

instance {ε α : Type} [DecidableEq ε] [DecidableEq α] : DecidableEq (Except ε α) :=
  fun a b =>
  match a, b with
  | .ok x, .ok y => decidable_of_iff (x = y) (by simp)
  | .error x, .error y => decidable_of_iff (x = y) (by simp)
  | .ok _, .error _ => isFalse (by simp)
  | .error _, .ok _ => isFalse (by simp)

/-- Python exceptions that the modelled fragment can raise. -/
inductive PyError where
  | nodeNotFound
  | keyError
  | zeroDivisionError
deriving DecidableEq, Repr

/-- Node attributes stored by `G.add_node(id, name=..., pos=(lat, lon))`. -/
structure NodeData where
  name : String
  lat : ℚ
  lon : ℚ
deriving DecidableEq, Repr

/-- Edge attributes stored by `G.add_edge(u, v, weight=..., duration=...,
fuel=..., congestion=...)`. The distance is stored under the key
`weight`, as in the source. -/
structure EdgeData where
  weight : ℚ
  duration : ℚ
  fuel : ℚ
  congestion : ℚ
deriving DecidableEq, Repr

/-- A directed graph in the style of `networkx.DiGraph`: nodes in
insertion order, each with an optional attribute record (nodes created
implicitly by `add_edge` carry no attributes), and directed edges in
insertion order with their attribute record. -/
structure Graph where
  nodes : List (Int × Option NodeData)
  edges : List (Int × Int × EdgeData)
deriving DecidableEq, Repr

/-- Node identifiers of a graph, in insertion order. -/
def Graph.nodeIds (g : Graph) : List Int :=
  g.nodes.map Prod.fst

/-- Attribute record of the directed edge `u → v`, when present
(`graph[u][v]` in the source; absence raises `KeyError` there). -/
def Graph.getEdge (g : Graph) (u v : Int) : Option EdgeData :=
  (g.edges.find? (fun e => e.1 == u && e.2.1 == v)).map (fun e => e.2.2)

/-- Successors of `u` in adjacency (edge-insertion) order, as iterated
by the path enumerator. -/
def Graph.successors (g : Graph) (u : Int) : List Int :=
  g.edges.filterMap (fun e => if e.1 = u then some e.2.1 else none)

/-- Model of `DiGraph.add_node`: a new node is appended; an existing
node has its attributes updated in place and keeps its position. -/
def Graph.add_node (g : Graph) (n : Int) (d : Option NodeData) : Graph :=
  if n ∈ g.nodeIds then
    { g with nodes := g.nodes.map (fun p => if p.1 = n then (n, d) else p) }
  else
    { g with nodes := g.nodes ++ [(n, d)] }

/-- Model of the implicit node creation performed by `DiGraph.add_edge`:
a missing endpoint is appended with no attributes; an existing node is
left untouched. -/
def Graph.ensure_node (g : Graph) (n : Int) : Graph :=
  if n ∈ g.nodeIds then g
  else { g with nodes := g.nodes ++ [(n, none)] }

/-- Model of `DiGraph.add_edge`: both endpoints are created if missing,
then a new edge is appended, while re-adding an existing edge replaces
its attributes in place (adjacency order is preserved). -/
def Graph.add_edge (g : Graph) (u v : Int) (d : EdgeData) : Graph :=
  let g1 := (g.ensure_node u).ensure_node v
  if g1.edges.any (fun e => e.1 == u && e.2.1 == v) then
    { g1 with edges := g1.edges.map (fun e =>
        if e.1 == u && e.2.1 == v then (u, v, d) else e) }
  else
    { g1 with edges := g1.edges ++ [(u, v, d)] }

/-- A row of `airports.csv` as consumed by `build_air_route_graph`. -/
structure AirportRow where
  id : Int
  name : String
  lat : ℚ
  lon : ℚ
deriving DecidableEq, Repr

/-- A row of `routes.csv` as consumed by `build_air_route_graph`. -/
structure RouteRow where
  from_ : Int
  to_ : Int
  distance_km : ℚ
  avg_duration_min : ℚ
  fuel_cost_l : ℚ
  congestion_factor : ℚ
deriving DecidableEq, Repr

/-- Model of `build_air_route_graph` (lines 9-25): add every airport row
as a node, then every route row as a directed edge. The source also
returns the airports table unchanged alongside the graph; that second
component is the unmodified input and is omitted here. No validation of
any kind is performed: `add_edge` silently creates missing endpoints and
`add_node` silently updates duplicated ids. -/
def build_air_route_graph (airports : List AirportRow) (routes : List RouteRow) : Graph :=
  let g1 := airports.foldl
    (fun g r => g.add_node r.id (some ⟨r.name, r.lat, r.lon⟩)) ⟨[], []⟩
  routes.foldl
    (fun g r => g.add_edge r.from_ r.to_
      ⟨r.distance_km, r.avg_duration_min, r.fuel_cost_l, r.congestion_factor⟩) g1

/-- Depth-first enumeration of the simple paths from the node at the
head of `visitedRev` to `target`, mirroring `networkx.all_simple_paths`:
children are tried in adjacency order, a node already on the current
path is skipped, reaching the target yields the path, and `fuel` is the
remaining edge budget (the library cutoff, `len(G) - 1`). `visitedRev`
is the current path in reverse, current node first. -/
def dfsSimplePaths (g : Graph) (target : Int) :
    Nat → Int → List Int → List (List Int)
  | fuel, u, visitedRev =>
    if u = target then [visitedRev.reverse]
    else
      match fuel with
      | 0 => []
      | Nat.succ f =>
        (g.successors u).flatMap (fun v =>
          if v ∈ visitedRev then []
          else dfsSimplePaths g target f v (v :: visitedRev))

/-- Model of `nx.all_simple_paths(graph, start, end)` forced to a list:
raises `NodeNotFound` when either endpoint is missing from the graph,
and otherwise returns the depth-first enumeration with the default
cutoff of `len(G) - 1` edges. When no path exists it returns the empty
list — the `NetworkXNoPath` exception is never raised by this library
call. -/
def all_simple_paths (g : Graph) (source target : Int) :
    Except PyError (List (List Int)) :=
  if source ∈ g.nodeIds then
    if target ∈ g.nodeIds then
      .ok (dfsSimplePaths g target (g.nodes.length - 1) source [source])
    else .error .nodeNotFound
  else .error .nodeNotFound

/-- The four running sums kept in the `total` dict of
`dijkstra_multi_objective` (line 38). -/
structure AggregateCost where
  distance : ℚ
  duration : ℚ
  fuel : ℚ
  congestion : ℚ
deriving DecidableEq, Repr

/-- The per-request weight dict `{distance, duration, fuel, congestion}`. -/
structure WeightVector where
  distance : ℚ
  duration : ℚ
  fuel : ℚ
  congestion : ℚ
deriving DecidableEq, Repr

/-- The inner accumulation loop of `dijkstra_multi_objective`
(lines 39-44): walk the consecutive pairs of the path, adding the four
attributes of each edge into the `total` dict; a missing edge raises
`KeyError`. -/
def dijkstra_totals_loop (g : Graph) :
    List Int → AggregateCost → Except PyError AggregateCost
  | u :: v :: rest, acc =>
    match g.getEdge u v with
    | none => .error .keyError
    | some e =>
      dijkstra_totals_loop g (v :: rest)
        ⟨acc.distance + e.weight, acc.duration + e.duration,
         acc.fuel + e.fuel, acc.congestion + e.congestion⟩
  | _, acc => .ok acc

/-- The `total` dict computed for one path by `dijkstra_multi_objective`,
starting from all-zero sums (line 38). -/
def dijkstra_totals (g : Graph) (path : List Int) : Except PyError AggregateCost :=
  dijkstra_totals_loop g path ⟨0, 0, 0, 0⟩

/-- The scalarisation of lines 46-49:
`score = w.distance * total.distance + ... + w.congestion * total.congestion`. -/
def score (w : WeightVector) (t : AggregateCost) : ℚ :=
  w.distance * t.distance + w.duration * t.duration +
    w.fuel * t.fuel + w.congestion * t.congestion

/-- The comparison `score < best_score` of line 51, where `best_score`
may be `float("inf")` (modelled as `none`). -/
def ltOptInf (s : ℚ) : Option ℚ → Bool
  | none => true
  | some b => decide (s < b)

/-- The selection loop of lines 37-53: fold over the enumerated paths,
keeping `(best_path, best_score)` and replacing the incumbent exactly
when the new score is strictly smaller. -/
def selectLoop (g : Graph) (w : WeightVector) :
    List (List Int) → Option (List Int) × Option ℚ →
      Except PyError (Option (List Int) × Option ℚ)
  | [], acc => .ok acc
  | p :: rest, (bp, bs) =>
    match dijkstra_totals g p with
    | .error e => .error e
    | .ok t =>
      if ltOptInf (score w t) bs then
        selectLoop g w rest (some p, some (score w t))
      else
        selectLoop g w rest (bp, bs)

/-- Model of `dijkstra_multi_objective` (lines 28-55). The `try` block
forces the enumerator; since `all_simple_paths` only ever raises
`NodeNotFound`, which is not a `NetworkXNoPath`, the `except` clause is
dead code and a missing endpoint propagates as an error. Otherwise the
selection loop runs from `best_path = None`, `best_score = inf`. -/
def dijkstra_multi_objective (g : Graph) (start target : Int) (w : WeightVector) :
    Except PyError (Option (List Int) × Option ℚ) :=
  match all_simple_paths g start target with
  | .error e => .error e
  | .ok paths => selectLoop g w paths (none, none)

/-- Model of `random.uniform a b` applied to a unit draw `r`. -/
def uniformOf (a b r : ℚ) : ℚ := a + (b - a) * r

/-- The edge traversal of `simulate_weather_conditions` (lines 59-62):
edge `i` (0-based, in insertion order) consumes unit draws `rand (2*i)`
for the duration delay in `[0, 20]` and `rand (2*i + 1)` for the
congestion increase in `[0, 0.2]`; `weight` and `fuel` are untouched. -/
def perturbEdges (rand : Nat → ℚ) :
    Nat → List (Int × Int × EdgeData) → List (Int × Int × EdgeData)
  | _, [] => []
  | i, (u, v, d) :: rest =>
    (u, v,
      { d with
        duration := d.duration + uniformOf 0 20 (rand (2 * i)),
        congestion := d.congestion + uniformOf 0 (2/10) (rand (2 * i + 1)) }) ::
      perturbEdges rand (i + 1) rest

/-- Model of `simulate_weather_conditions` (lines 58-62). The source
draws from the module-global `random` generator; here that hidden global
state is made explicit as the stream `rand` of unit draws. -/
def simulate_weather_conditions (g : Graph) (rand : Nat → ℚ) : Graph :=
  { g with edges := perturbEdges rand 0 g.edges }

/-- The metrics dict returned by `analyze_path` (lines 73-78). -/
structure Metrics where
  total_distance_km : ℚ
  flight_duration_min : ℚ
  fuel_consumed_l : ℚ
  avg_congestion : ℚ
deriving DecidableEq, Repr

/-- The accumulation loop of `analyze_path` (lines 66-72): four separate
running sums over the consecutive pairs of the path; a missing edge
raises `KeyError` at the first offending pair. -/
def analyze_loop (g : Graph) :
    List Int → ℚ → ℚ → ℚ → ℚ → Except PyError (ℚ × ℚ × ℚ × ℚ)
  | u :: v :: rest, distance, duration, fuel, congestion =>
    match g.getEdge u v with
    | none => .error .keyError
    | some e =>
      analyze_loop g (v :: rest) (distance + e.weight) (duration + e.duration)
        (fuel + e.fuel) (congestion + e.congestion)
  | _, distance, duration, fuel, congestion =>
    .ok (distance, duration, fuel, congestion)

/-- Model of `analyze_path` (lines 65-78): run the accumulation loop,
then divide the congestion sum by `len(path) - 1`. The divisor is the
Python integer `len(path) - 1`: it is `0` exactly when the path has one
node, raising `ZeroDivisionError`; for the empty path it is `-1` and the
division yields `0` without error. -/
def analyze_path (g : Graph) (path : List Int) : Except PyError Metrics :=
  match analyze_loop g path 0 0 0 0 with
  | .error e => .error e
  | .ok (distance, duration, fuel, congestion) =>
    let divisor : ℚ := (path.length : ℚ) - 1
    if divisor = 0 then .error .zeroDivisionError
    else .ok ⟨distance, duration, fuel, congestion / divisor⟩

/-!
Concrete data from the spec scenario: the 4-node graph with directed
edges A→B, B→D, A→C, C→D, node ids A = 1, B = 2, C = 3, D = 4, and the
all-ones weight vector.
-/

/-- Airport rows of the concrete 4-node scenario. -/
def airports4 : List AirportRow :=
  [⟨1, "A", 0, 0⟩, ⟨2, "B", 0, 0⟩, ⟨3, "C", 0, 0⟩, ⟨4, "D", 0, 0⟩]

/-- Route rows of the concrete 4-node scenario. -/
def routes4 : List RouteRow :=
  [⟨1, 2, 100, 10, 20, 1/10⟩,
   ⟨2, 4, 100, 10, 20, 1/10⟩,
   ⟨1, 3, 150, 8, 25, 5/100⟩,
   ⟨3, 4, 50, 8, 15, 5/100⟩]

/-- The concrete 4-node graph, built by the graph builder with no
perturbation applied. -/
def g4 : Graph := build_air_route_graph airports4 routes4

/-- The all-ones weight vector. -/
def w1 : WeightVector := ⟨1, 1, 1, 1⟩

/-!
Facts about the comparison against a possibly-infinite best score.
-/

theorem ltOptInf_none (a : ℚ) : ltOptInf a none = true := rfl

theorem ltOptInf_some_iff {a b : ℚ} : ltOptInf a (some b) = true ↔ a < b := by
  simp [ltOptInf]

theorem ltOptInf_some_false_iff {a b : ℚ} : ltOptInf a (some b) = false ↔ ¬ a < b := by
  simp [ltOptInf]

theorem ltOptInf_trans {a b : ℚ} {c : Option ℚ} (h1 : ltOptInf a (some b) = true)
    (h2 : ltOptInf b c = true) : ltOptInf a c = true := by
  cases c with
  | none => rfl
  | some cb =>
    rw [ltOptInf_some_iff] at h1 h2 ⊢
    exact h1.trans h2

theorem lt_of_ltOptInf_of_not {a b : ℚ} {c : Option ℚ} (h1 : ltOptInf a c = true)
    (h2 : ltOptInf b c = false) : a < b := by
  cases c with
  | none => simp [ltOptInf] at h2
  | some cb =>
    rw [ltOptInf_some_iff] at h1
    rw [ltOptInf_some_false_iff] at h2
    exact h1.trans_le (le_of_not_lt h2)

/-- Invariant of the selection loop: a successful run either leaves the
incumbent untouched (and then no candidate beats the incumbent score),
or returns the first candidate attaining the minimum: every earlier
candidate scores strictly higher, every later candidate scores no
lower. -/
theorem selectLoop_spec (g : Graph) (w : WeightVector) :
    ∀ (L : List (List Int)) (bp : Option (List Int)) (bs : Option ℚ)
      (r : Option (List Int)) (s : Option ℚ),
      selectLoop g w L (bp, bs) = .ok (r, s) →
      (r = bp ∧ s = bs ∧
        ∀ q ∈ L, ∃ tq, dijkstra_totals g q = .ok tq ∧
          ltOptInf (score w tq) bs = false) ∨
      (∃ L1 q L2 tq, L = L1 ++ q :: L2 ∧ dijkstra_totals g q = .ok tq ∧
        r = some q ∧ s = some (score w tq) ∧ ltOptInf (score w tq) bs = true ∧
        (∀ x ∈ L1, ∃ tx, dijkstra_totals g x = .ok tx ∧
          score w tq < score w tx) ∧
        (∀ y ∈ L2, ∃ ty, dijkstra_totals g y = .ok ty ∧
          ¬ score w ty < score w tq)) := by
  intro L
  induction L with
  | nil =>
    intro bp bs r s h
    simp only [selectLoop, Except.ok.injEq, Prod.mk.injEq] at h
    exact Or.inl ⟨h.1.symm, h.2.symm, by simp⟩
  | cons p rest ih =>
    intro bp bs r s h
    rw [selectLoop] at h
    cases ht : dijkstra_totals g p with
    | error e => rw [ht] at h; exact absurd h (by simp)
    | ok t =>
      rw [ht] at h
      simp only at h
      by_cases hlt : ltOptInf (score w t) bs = true
      · rw [if_pos hlt] at h
        rcases ih (some p) (some (score w t)) r s h with
          ⟨hr, hs, hall⟩ | ⟨L1, q, L2, tq, hsplit, htq, hr, hs, hqlt, hL1, hL2⟩
        · refine Or.inr ⟨[], p, rest, t, rfl, ht, hr, hs, hlt, by simp, ?_⟩
          intro y hy
          rcases hall y hy with ⟨ty, hty, hf⟩
          exact ⟨ty, hty, (ltOptInf_some_false_iff).1 hf⟩
        · refine Or.inr ⟨p :: L1, q, L2, tq, by rw [hsplit, List.cons_append], htq, hr, hs,
            ltOptInf_trans hqlt hlt, ?_, hL2⟩
          intro x hx
          rcases List.mem_cons.1 hx with hx | hx
          · exact ⟨t, hx ▸ ht, (ltOptInf_some_iff).1 hqlt⟩
          · exact hL1 x hx
      · rw [if_neg hlt] at h
        have hltf : ltOptInf (score w t) bs = false := by
          revert hlt; cases ltOptInf (score w t) bs <;> simp
        rcases ih bp bs r s h with
          ⟨hr, hs, hall⟩ | ⟨L1, q, L2, tq, hsplit, htq, hr, hs, hqlt, hL1, hL2⟩
        · refine Or.inl ⟨hr, hs, ?_⟩
          intro q hq
          rcases List.mem_cons.1 hq with hq | hq
          · exact ⟨t, hq ▸ ht, hltf⟩
          · exact hall q hq
        · refine Or.inr ⟨p :: L1, q, L2, tq, by rw [hsplit, List.cons_append], htq, hr, hs, hqlt, ?_, hL2⟩
          intro x hx
          rcases List.mem_cons.1 hx with hx | hx
          · exact ⟨t, hx ▸ ht, lt_of_ltOptInf_of_not hqlt hltf⟩
          · exact hL1 x hx

/-- C1: whenever `dijkstra_multi_objective` returns a path, that path is
one of the enumerated candidates, the returned score is exactly the
weighted sum of the four aggregated edge attributes of the path, and no
enumerated candidate for the same request scores lower. -/
theorem best_path_score_minimal (g : Graph) (a b : Int) (w : WeightVector)
    (ps : List (List Int)) (p : List Int) (s : Option ℚ)
    (hps : all_simple_paths g a b = .ok ps)
    (hr : dijkstra_multi_objective g a b w = .ok (some p, s)) :
    p ∈ ps ∧ ∃ t, dijkstra_totals g p = .ok t ∧ s = some (score w t) ∧
      ∀ q ∈ ps, ∃ tq, dijkstra_totals g q = .ok tq ∧ score w t ≤ score w tq := by
  rw [dijkstra_multi_objective, hps] at hr
  simp only at hr
  rcases selectLoop_spec g w ps none none (some p) s hr with
    ⟨hp, _, _⟩ | ⟨L1, q, L2, tq, hsplit, htq, hpq, hs, _, hL1, hL2⟩
  · exact absurd hp (by simp)
  · have hpq2 : p = q := by injection hpq
    subst hpq2
    refine ⟨by rw [hsplit]; exact List.mem_append_right _ (List.mem_cons_self _ _),
      tq, htq, hs, ?_⟩
    intro x hx
    rw [hsplit] at hx
    rcases List.mem_append.1 hx with hx | hx
    · rcases hL1 x hx with ⟨tx, htx, hlt⟩
      exact ⟨tx, htx, le_of_lt hlt⟩
    · rcases List.mem_cons.1 hx with hx | hx
      · exact ⟨tq, hx ▸ htq, le_refl _⟩
      · rcases hL2 x hx with ⟨tx, htx, hnlt⟩
        exact ⟨tx, htx, le_of_not_lt hnlt⟩

/-- Witness for C1 on the concrete 4-node scenario: the returned path
A→C→D is among the two enumerated candidates, its score is the weighted
aggregate 256.1, and it is minimal among the candidates. -/
theorem best_path_score_minimal_witness :
    ([1, 3, 4] : List Int) ∈ ([[1, 2, 4], [1, 3, 4]] : List (List Int)) ∧
    ∃ t, dijkstra_totals g4 [1, 3, 4] = .ok t ∧
      (some (256.1 : ℚ) : Option ℚ) = some (score w1 t) ∧
      ∀ q ∈ ([[1, 2, 4], [1, 3, 4]] : List (List Int)),
        ∃ tq, dijkstra_totals g4 q = .ok tq ∧ score w1 t ≤ score w1 tq :=
  best_path_score_minimal g4 1 4 w1 [[1, 2, 4], [1, 3, 4]] [1, 3, 4]
    (some 256.1) (by with_unfolding_all rfl) (by with_unfolding_all rfl)

/-- C2: on the concrete 4-node graph with all-ones weights and no
perturbation, the scorer returns path A→C→D with score 256.1; the
alternative A→B→D aggregates to score 260.2, which is strictly
larger. -/
theorem best_path_concrete_scenario :
    dijkstra_multi_objective g4 1 4 w1 = .ok (some [1, 3, 4], some 256.1) ∧
    (dijkstra_totals g4 [1, 2, 4]).map (score w1) = .ok 260.2 ∧
    (256.1 : ℚ) < 260.2 :=
  ⟨by with_unfolding_all rfl, by with_unfolding_all rfl, by norm_num⟩

/-- C3 (amended): a missing start or end node makes
`dijkstra_multi_objective` propagate the `NodeNotFound` exception (the
`except` clause only handles `NetworkXNoPath`, which the enumerator
never raises), while an empty enumeration — both endpoints present but
no simple path — returns the `NotFound` outcome `(None, inf)` without
raising. -/
theorem dijkstra_no_route_behavior :
    (∀ (g : Graph) (a b : Int) (w : WeightVector), a ∉ g.nodeIds ∨ b ∉ g.nodeIds →
      dijkstra_multi_objective g a b w = .error .nodeNotFound) ∧
    (∀ (g : Graph) (a b : Int) (w : WeightVector), all_simple_paths g a b = .ok [] →
      dijkstra_multi_objective g a b w = .ok (none, none)) := by
  constructor
  · intro g a b w hab
    have herr : all_simple_paths g a b = .error .nodeNotFound := by
      rw [all_simple_paths]
      rcases hab with h | h
      · rw [if_neg h]
      · by_cases ha : a ∈ g.nodeIds
        · rw [if_pos ha, if_neg h]
        · rw [if_neg ha]
    rw [dijkstra_multi_objective, herr]
  · intro g a b w hps
    rw [dijkstra_multi_objective, hps]
    rfl

/-- Witness for C3 (amended) at concrete inputs: in the 4-node graph,
querying the absent node 99 raises `NodeNotFound`, and the disconnected
pair D→A (both present, no directed path) yields `(None, inf)`. -/
theorem dijkstra_no_route_behavior_witness :
    dijkstra_multi_objective g4 1 99 w1 = .error .nodeNotFound ∧
    dijkstra_multi_objective g4 4 1 w1 = .ok (none, none) :=
  ⟨dijkstra_no_route_behavior.1 g4 1 99 w1 (Or.inr (by with_unfolding_all decide)),
   dijkstra_no_route_behavior.2 g4 4 1 w1 (by with_unfolding_all rfl)⟩

/-- Counterexample to C3 as stated: with node 99 absent from the 4-node
graph, the call does not return the `NotFound` outcome — it raises
`NodeNotFound`, because the `except nx.NetworkXNoPath` clause does not
catch that exception. -/
theorem dijkstra_missing_node_raises :
    dijkstra_multi_objective g4 1 99 w1 = .error .nodeNotFound ∧
    ∀ res, dijkstra_multi_objective g4 1 99 w1 ≠ .ok res := by
  refine ⟨by with_unfolding_all rfl, ?_⟩
  intro res h
  rw [show dijkstra_multi_objective g4 1 99 w1 = .error .nodeNotFound from
    by with_unfolding_all rfl] at h
  exact absurd h (by simp)

/-- C6: the selection loop replaces the incumbent only on a strictly
smaller score, so the returned path is exactly the first enumerated
candidate attaining the minimal score: every candidate enumerated
before it scores strictly higher, every one after it scores no lower. -/
theorem best_path_tie_keeps_first (g : Graph) (a b : Int) (w : WeightVector)
    (ps : List (List Int)) (p : List Int) (s : Option ℚ)
    (hps : all_simple_paths g a b = .ok ps)
    (hr : dijkstra_multi_objective g a b w = .ok (some p, s)) :
    ∃ L1 L2 t, ps = L1 ++ p :: L2 ∧ dijkstra_totals g p = .ok t ∧
      s = some (score w t) ∧
      (∀ x ∈ L1, ∃ tx, dijkstra_totals g x = .ok tx ∧ score w t < score w tx) ∧
      (∀ y ∈ L2, ∃ ty, dijkstra_totals g y = .ok ty ∧ score w t ≤ score w ty) := by
  rw [dijkstra_multi_objective, hps] at hr
  simp only at hr
  rcases selectLoop_spec g w ps none none (some p) s hr with
    ⟨hp, _, _⟩ | ⟨L1, q, L2, tq, hsplit, htq, hpq, hs, _, hL1, hL2⟩
  · exact absurd hp (by simp)
  · have hpq2 : p = q := by injection hpq
    subst hpq2
    refine ⟨L1, L2, tq, hsplit, htq, hs, hL1, ?_⟩
    intro y hy
    rcases hL2 y hy with ⟨ty, hty, hnlt⟩
    exact ⟨ty, hty, le_of_not_lt hnlt⟩

/-- Tie scenario: both candidate paths A→B→D and A→C→D aggregate to the
same score 130 under all-ones weights. -/
def gTie : Graph :=
  build_air_route_graph
    [⟨1, "A", 0, 0⟩, ⟨2, "B", 0, 0⟩, ⟨3, "C", 0, 0⟩, ⟨4, "D", 0, 0⟩]
    [⟨1, 2, 50, 5, 10, 0⟩, ⟨2, 4, 50, 5, 10, 0⟩,
     ⟨1, 3, 60, 4, 12, 0⟩, ⟨3, 4, 40, 6, 8, 0⟩]

/-- Witness for C6 on the tie scenario: the scorer returns A→B→D, the
candidate enumerated first, and the theorem places it with no strictly
cheaper predecessor and no strictly cheaper successor. -/
theorem best_path_tie_keeps_first_witness :
    ∃ L1 L2 t, ([[1, 2, 4], [1, 3, 4]] : List (List Int)) = L1 ++ [1, 2, 4] :: L2 ∧
      dijkstra_totals gTie [1, 2, 4] = .ok t ∧
      (some (130 : ℚ) : Option ℚ) = some (score w1 t) ∧
      (∀ x ∈ L1, ∃ tx, dijkstra_totals gTie x = .ok tx ∧ score w1 t < score w1 tx) ∧
      (∀ y ∈ L2, ∃ ty, dijkstra_totals gTie y = .ok ty ∧ score w1 t ≤ score w1 ty) :=
  best_path_tie_keeps_first gTie 1 4 w1 [[1, 2, 4], [1, 3, 4]] [1, 2, 4]
    (some 130) (by with_unfolding_all rfl) (by with_unfolding_all rfl)

/-- C5 (amended): a single-node path aggregates to all-zero sums in the
scorer, but `analyze_path` on it raises `ZeroDivisionError` from
`congestion / (len(path) - 1)` instead of reporting a zero average; for
the empty path the divisor is `-1`, so the call returns all-zero metrics
(average congestion `0 / -1 = 0`) without raising. -/
theorem analyze_short_path_behavior :
    (∀ (g : Graph) (u : Int), dijkstra_totals g [u] = .ok ⟨0, 0, 0, 0⟩) ∧
    (∀ (g : Graph) (u : Int), analyze_path g [u] = .error .zeroDivisionError) ∧
    (∀ g : Graph, analyze_path g [] = .ok ⟨0, 0, 0, 0⟩) :=
  ⟨fun _ _ => rfl,
   fun _ _ => by with_unfolding_all rfl,
   fun _ => by with_unfolding_all rfl⟩

/-- Counterexample to C5 as stated: on the concrete 4-node graph, the
single-node path `[1]` (start equal to end) makes `analyze_path` raise
`ZeroDivisionError`; it does not return a metrics record with a defined
zero (or NaN) average congestion. -/
theorem analyze_single_node_divides_by_zero :
    analyze_path g4 [1] = .error .zeroDivisionError ∧
    ∀ m, analyze_path g4 [1] ≠ .ok m := by
  refine ⟨by with_unfolding_all rfl, ?_⟩
  intro m h
  rw [show analyze_path g4 [1] = .error .zeroDivisionError from
    by with_unfolding_all rfl] at h
  exact absurd h (by simp)

/-- Unfolding equation for `dijkstra_totals`. -/
theorem dijkstra_totals_def (g : Graph) (path : List Int) :
    dijkstra_totals g path = dijkstra_totals_loop g path ⟨0, 0, 0, 0⟩ := rfl

/-- Lemma: the accumulation loop of the analyzer computes exactly the
four sums that the accumulation loop of the scorer computes, from any
common starting sums. -/
theorem analyze_loop_eq_totals_loop (g : Graph) :
    ∀ (p : List Int) (d du f c : ℚ),
      analyze_loop g p d du f c =
        (dijkstra_totals_loop g p ⟨d, du, f, c⟩).map
          (fun t => (t.distance, t.duration, t.fuel, t.congestion)) := by
  intro p
  induction p with
  | nil => intro d du f c; rfl
  | cons u tail ih =>
    intro d du f c
    cases tail with
    | nil => rfl
    | cons v rest =>
      rw [analyze_loop, dijkstra_totals_loop]
      cases g.getEdge u v with
      | none => rfl
      | some e => exact ih (d + e.weight) (du + e.duration) (f + e.fuel) (c + e.congestion)

/-- Lemma: a successful run of the scorer loop adds, on top of the
starting sums, the sum of the edge distances over the consecutive pairs
of the path. -/
theorem totals_loop_distance_sum (g : Graph) :
    ∀ (p : List Int) (acc t : AggregateCost),
      dijkstra_totals_loop g p acc = .ok t →
      t.distance = acc.distance +
        ((p.zip p.tail).map
          (fun uv => ((g.getEdge uv.1 uv.2).map EdgeData.weight).getD 0)).sum := by
  intro p
  induction p with
  | nil =>
    intro acc t h
    simp only [dijkstra_totals_loop, Except.ok.injEq] at h
    simp [← h]
  | cons u tail ih =>
    intro acc t h
    cases tail with
    | nil =>
      simp only [dijkstra_totals_loop, Except.ok.injEq] at h
      simp [← h]
    | cons v rest =>
      rw [dijkstra_totals_loop] at h
      cases he : g.getEdge u v with
      | none => rw [he] at h; exact absurd h (by simp)
      | some e =>
        rw [he] at h
        simp only at h
        have := ih ⟨acc.distance + e.weight, acc.duration + e.duration,
          acc.fuel + e.fuel, acc.congestion + e.congestion⟩ t h
        simp only [List.zip_cons_cons, List.tail_cons, List.map_cons, List.sum_cons,
          he, Option.map_some', Option.getD_some] at this ⊢
        rw [this]
        ring

/-- C8: the analyzer and the scorer agree bit for bit. The two
accumulation loops compute identical sums from identical starting
values; hence a successful `analyze_path` reports exactly the four sums
of the scorer `total` dict (the average being the congestion sum over
`len(path) - 1`), and the reported total distance is the sum of the
edge distances along consecutive pairs. -/
theorem analyze_agrees_with_scorer :
    (∀ (g : Graph) (p : List Int) (d du f c : ℚ),
      analyze_loop g p d du f c =
        (dijkstra_totals_loop g p ⟨d, du, f, c⟩).map
          (fun t => (t.distance, t.duration, t.fuel, t.congestion))) ∧
    (∀ (g : Graph) (p : List Int) (m : Metrics), analyze_path g p = .ok m →
      ∃ t, dijkstra_totals g p = .ok t ∧
        m.total_distance_km = t.distance ∧
        m.flight_duration_min = t.duration ∧
        m.fuel_consumed_l = t.fuel ∧
        m.avg_congestion = t.congestion / ((p.length : ℚ) - 1)) ∧
    (∀ (g : Graph) (p : List Int) (t : AggregateCost), dijkstra_totals g p = .ok t →
      t.distance = ((p.zip p.tail).map
        (fun uv => ((g.getEdge uv.1 uv.2).map EdgeData.weight).getD 0)).sum) := by
  refine ⟨analyze_loop_eq_totals_loop, ?_, ?_⟩
  · intro g p m h
    rw [analyze_path, analyze_loop_eq_totals_loop] at h
    cases ht : dijkstra_totals g p with
    | error e =>
      rw [dijkstra_totals_def] at ht
      rw [ht] at h
      simp [Except.map] at h
    | ok t =>
      have ht0 := ht
      rw [dijkstra_totals_def] at ht
      rw [ht] at h
      simp only [Except.map] at h
      by_cases hd : ((p.length : ℚ) - 1) = 0
      · rw [if_pos hd] at h
        exact absurd h (by simp)
      · rw [if_neg hd] at h
        simp only [Except.ok.injEq] at h
        exact ⟨t, rfl, by rw [← h], by rw [← h], by rw [← h], by rw [← h]⟩
  · intro g p t h
    have := totals_loop_distance_sum g p ⟨0, 0, 0, 0⟩ t h
    simpa using this

/-- Witness for C8 on the concrete path A→C→D of the 4-node graph: the
analyzer metrics (200 km, 16 min, 40 l, average congestion 1/20) are
exactly the scorer sums for the same path. -/
theorem analyze_agrees_with_scorer_witness :
    ∃ t, dijkstra_totals g4 [1, 3, 4] = .ok t ∧
      (200 : ℚ) = t.distance ∧ (16 : ℚ) = t.duration ∧ (40 : ℚ) = t.fuel ∧
      (1/20 : ℚ) = t.congestion / ((([1, 3, 4] : List Int).length : ℚ) - 1) :=
  analyze_agrees_with_scorer.2.1 g4 [1, 3, 4] ⟨200, 16, 40, 1/20⟩
    (by with_unfolding_all rfl)

/-- Lemma: the analyzer loop raises `KeyError` as soon as some
consecutive pair of the path has no edge in the graph. -/
theorem analyze_loop_missing_edge (g : Graph) :
    ∀ (p : List Int) (d du f c : ℚ),
      ((p.zip p.tail).any fun uv => (g.getEdge uv.1 uv.2).isNone) = true →
      analyze_loop g p d du f c = .error .keyError := by
  intro p
  induction p with
  | nil => intro d du f c h; simp at h
  | cons u tail ih =>
    intro d du f c h
    cases tail with
    | nil => simp at h
    | cons v rest =>
      simp only [List.tail_cons, List.zip_cons_cons, List.any_cons, Bool.or_eq_true] at h
      rw [analyze_loop]
      cases he : g.getEdge u v with
      | none => rfl
      | some e =>
        rcases h with h | h
        · rw [he] at h; simp at h
        · exact ih (d + e.weight) (du + e.duration) (f + e.fuel) (c + e.congestion)
            (by simpa using h)

/-- C9: whenever some consecutive pair of the path argument has no
corresponding directed edge, `analyze_path` fails for that call with the
`KeyError` raised by the missing-edge lookup (the `InvalidPathError` of
the spec), rather than returning metrics. -/
theorem analyze_invalid_path_fails (g : Graph) (p : List Int)
    (h : ((p.zip p.tail).any fun uv => (g.getEdge uv.1 uv.2).isNone) = true) :
    analyze_path g p = .error .keyError := by
  rw [analyze_path, analyze_loop_missing_edge g p 0 0 0 0 h]

/-- Witness for C9: the pair (1, 4) has no direct edge in the 4-node
graph, and `analyze_path` on the path [1, 4] fails with `KeyError`. -/
theorem analyze_invalid_path_fails_witness :
    analyze_path g4 [1, 4] = .error .keyError :=
  analyze_invalid_path_fails g4 [1, 4] (by with_unfolding_all rfl)

/-- Relation between a perturbed edge and the original edge: same
endpoints, same distance (`weight`) and fuel, duration increased by some
delay in `[0, 20]`, congestion increased by some value in `[0, 0.2]`. -/
def PerturbedEdge (e2 e : Int × Int × EdgeData) : Prop :=
  e2.1 = e.1 ∧ e2.2.1 = e.2.1 ∧ e2.2.2.weight = e.2.2.weight ∧
  e2.2.2.fuel = e.2.2.fuel ∧
  (∃ dl, 0 ≤ dl ∧ dl ≤ 20 ∧ e2.2.2.duration = e.2.2.duration + dl) ∧
  (∃ c, 0 ≤ c ∧ c ≤ (0.2 : ℚ) ∧ e2.2.2.congestion = e.2.2.congestion + c)

/-- Lemma: the edge traversal of the weather pass relates every output
edge to its input edge by `PerturbedEdge`, for any starting draw
index. -/
theorem perturbEdges_perturbed (rand : Nat → ℚ) (h : ∀ n, 0 ≤ rand n ∧ rand n ≤ 1) :
    ∀ (es : List (Int × Int × EdgeData)) (i : Nat),
      List.Forall₂ PerturbedEdge (perturbEdges rand i es) es := by
  intro es
  induction es with
  | nil => intro i; rw [perturbEdges]; exact List.Forall₂.nil
  | cons e rest ih =>
    intro i
    obtain ⟨u, v, d⟩ := e
    rw [perturbEdges]
    refine List.Forall₂.cons ⟨rfl, rfl, rfl, rfl, ?_, ?_⟩ (ih (i + 1))
    · refine ⟨uniformOf 0 20 (rand (2 * i)), ?_, ?_, rfl⟩
      · rcases h (2 * i) with ⟨h0, h1⟩
        rw [uniformOf]
        nlinarith
      · rcases h (2 * i) with ⟨h0, h1⟩
        rw [uniformOf]
        nlinarith
    · refine ⟨uniformOf 0 (2/10) (rand (2 * i + 1)), ?_, ?_, rfl⟩
      · rcases h (2 * i + 1) with ⟨h0, h1⟩
        rw [uniformOf]
        nlinarith
      · rcases h (2 * i + 1) with ⟨h0, h1⟩
        rw [uniformOf]
        norm_num
        nlinarith

/-- C7: one weather pass leaves the node list untouched and maps the
edge list pointwise — same length, same endpoints, same distance and
fuel — adding to each duration a delay in `[0, 20]` and to each
congestion an increase in `[0, 0.2]` (the draws of `random.uniform`). -/
theorem weather_perturbation_frame (g : Graph) (rand : Nat → ℚ)
    (h : ∀ n, 0 ≤ rand n ∧ rand n ≤ 1) :
    (simulate_weather_conditions g rand).nodes = g.nodes ∧
    List.Forall₂ PerturbedEdge (simulate_weather_conditions g rand).edges g.edges :=
  ⟨rfl, perturbEdges_perturbed rand h g.edges 0⟩

/-- Witness for C7 on the 4-node graph with the constant stream 1/2. -/
theorem weather_perturbation_frame_witness :
    (simulate_weather_conditions g4 (fun _ => 1/2)).nodes = g4.nodes ∧
    List.Forall₂ PerturbedEdge
      (simulate_weather_conditions g4 (fun _ => 1/2)).edges g4.edges :=
  weather_perturbation_frame g4 (fun _ => 1/2) (fun _ => by norm_num)

/-- Two-node, one-edge graph used for the weather randomness claims. -/
def gW : Graph :=
  build_air_route_graph [⟨1, "A", 0, 0⟩, ⟨2, "B", 0, 0⟩] [⟨1, 2, 100, 10, 20, 1/10⟩]

/-- Counterexample to C10 as stated: `simulate_weather_conditions` takes
only the graph in the source — its randomness comes from the hidden
module-global stream, not from an injected argument — so its output is
not a function of the graph argument: the same graph under two different
global streams yields different perturbed edges. -/
theorem weather_not_determined_by_graph :
    simulate_weather_conditions gW (fun _ => 0) ≠
      simulate_weather_conditions gW (fun _ => 1) := by
  intro h
  have hL : (simulate_weather_conditions gW (fun _ => 0)).edges.map
      (fun e => e.2.2.duration) = [10] := by with_unfolding_all rfl
  have hR : (simulate_weather_conditions gW (fun _ => 1)).edges.map
      (fun e => e.2.2.duration) = [30] := by with_unfolding_all rfl
  rw [h, hR] at hL
  norm_num at hL

/-- C10 (amended): the weather pass is deterministic given the global
random stream — equal graphs and pointwise-equal draw streams (the state
reached from a common seed) produce identical perturbed graphs; no other
modelled operation consumes the random stream. -/
theorem weather_deterministic_under_seed (gA gB : Graph) (r1 r2 : Nat → ℚ)
    (hg : gA = gB) (hr : ∀ n, r1 n = r2 n) :
    simulate_weather_conditions gA r1 = simulate_weather_conditions gB r2 := by
  subst hg
  rw [simulate_weather_conditions, simulate_weather_conditions]
  have hp : ∀ (es : List (Int × Int × EdgeData)) (i : Nat),
      perturbEdges r1 i es = perturbEdges r2 i es := by
    intro es
    induction es with
    | nil => intro i; rfl
    | cons e rest ih =>
      intro i
      obtain ⟨u, v, d⟩ := e
      rw [perturbEdges, perturbEdges, hr, hr, ih]
  rw [hp]

/-- Witness for C10 (amended): two syntactically different but
pointwise-equal streams perturb the one-edge graph identically. -/
theorem weather_deterministic_under_seed_witness :
    simulate_weather_conditions gW (fun _ => 1/2) =
      simulate_weather_conditions gW (fun _ => 2/4) :=
  weather_deterministic_under_seed gW gW (fun _ => 1/2) (fun _ => 2/4) rfl
    (fun _ => by norm_num)

/-- Lemma: `add_node` leaves the id list unchanged when the id is
already present, and appends it otherwise. -/
theorem nodeIds_add_node (g : Graph) (n : Int) (d : Option NodeData) :
    (g.add_node n d).nodeIds =
      if n ∈ g.nodeIds then g.nodeIds else g.nodeIds ++ [n] := by
  by_cases hmem : n ∈ g.nodeIds
  · rw [Graph.add_node, if_pos hmem, if_pos hmem]
    show (g.nodes.map _).map Prod.fst = _
    rw [List.map_map]
    refine List.map_congr_left ?_
    intro p _
    show (if p.1 = n then (n, d) else p).1 = p.1
    by_cases hp : p.1 = n
    · rw [if_pos hp, hp]
    · rw [if_neg hp]
  · rw [Graph.add_node, if_neg hmem, if_neg hmem]
    show (g.nodes ++ [(n, d)]).map Prod.fst = g.nodes.map Prod.fst ++ [n]
    rw [List.map_append]
    rfl

theorem mem_nodeIds_add_node (g : Graph) (n m : Int) (d : Option NodeData) :
    m ∈ (g.add_node n d).nodeIds ↔ m ∈ g.nodeIds ∨ m = n := by
  rw [nodeIds_add_node]
  by_cases hmem : n ∈ g.nodeIds
  · rw [if_pos hmem]
    constructor
    · exact Or.inl
    · rintro (h | h)
      · exact h
      · exact h ▸ hmem
  · rw [if_neg hmem]
    simp

/-- Lemma: `ensure_node` appends the id exactly when it is missing. -/
theorem nodeIds_ensure_node (g : Graph) (n : Int) :
    (g.ensure_node n).nodeIds =
      if n ∈ g.nodeIds then g.nodeIds else g.nodeIds ++ [n] := by
  by_cases hmem : n ∈ g.nodeIds
  · rw [Graph.ensure_node, if_pos hmem, if_pos hmem]
  · rw [Graph.ensure_node, if_neg hmem, if_neg hmem]
    show (g.nodes ++ [(n, none)]).map Prod.fst = g.nodes.map Prod.fst ++ [n]
    rw [List.map_append]
    rfl

theorem mem_nodeIds_ensure_node (g : Graph) (n m : Int) :
    m ∈ (g.ensure_node n).nodeIds ↔ m ∈ g.nodeIds ∨ m = n := by
  rw [nodeIds_ensure_node]
  by_cases hmem : n ∈ g.nodeIds
  · rw [if_pos hmem]
    constructor
    · exact Or.inl
    · rintro (h | h)
      · exact h
      · exact h ▸ hmem
  · rw [if_neg hmem]
    simp

/-- Lemma: `ensure_node` never touches the edge list. -/
theorem edges_ensure_node (g : Graph) (n : Int) :
    (g.ensure_node n).edges = g.edges := by
  rw [Graph.ensure_node]
  by_cases hmem : n ∈ g.nodeIds
  · rw [if_pos hmem]
  · rw [if_neg hmem]

/-- Lemma: `ensure_node` is the identity on a present node. -/
theorem ensure_node_of_mem (g : Graph) (n : Int) (h : n ∈ g.nodeIds) :
    g.ensure_node n = g := by
  rw [Graph.ensure_node, if_pos h]

/-- Lemma: `add_edge` changes the node ids exactly as the two
`ensure_node` passes do. -/
theorem nodeIds_add_edge_aux (g : Graph) (u v : Int) (d : EdgeData) :
    (g.add_edge u v d).nodeIds = ((g.ensure_node u).ensure_node v).nodeIds := by
  rw [Graph.add_edge]
  by_cases hany : ((g.ensure_node u).ensure_node v).edges.any
      (fun e => e.1 == u && e.2.1 == v) = true
  · rw [if_pos hany]
    rfl
  · rw [if_neg hany]
    rfl

/-- Lemma: `add_edge` never removes node ids; the ids afterwards are the
old ones plus (possibly) the two endpoints. -/
theorem mem_nodeIds_add_edge (g : Graph) (u v m : Int) (d : EdgeData) :
    m ∈ (g.add_edge u v d).nodeIds ↔ m ∈ g.nodeIds ∨ m = u ∨ m = v := by
  rw [nodeIds_add_edge_aux, mem_nodeIds_ensure_node, mem_nodeIds_ensure_node, or_assoc]

/-- Lemma: `add_edge` leaves the node ids unchanged when both endpoints
are already present. -/
theorem nodeIds_add_edge_of_mem (g : Graph) (u v : Int) (d : EdgeData)
    (hu : u ∈ g.nodeIds) (hv : v ∈ g.nodeIds) :
    (g.add_edge u v d).nodeIds = g.nodeIds := by
  rw [nodeIds_add_edge_aux, ensure_node_of_mem g u hu, ensure_node_of_mem g v hv]


/-- Unfolding equation for `getEdge`. -/
theorem getEdge_def (g : Graph) (u v : Int) :
    g.getEdge u v = (g.edges.find? (fun e => e.1 == u && e.2.1 == v)).map
      (fun e => e.2.2) := rfl

/-- Unfolding equation for the edge list of `add_edge`. -/
theorem edges_add_edge (g : Graph) (u v : Int) (d : EdgeData) :
    (g.add_edge u v d).edges =
      if ((g.ensure_node u).ensure_node v).edges.any
          (fun e => e.1 == u && e.2.1 == v) = true then
        ((g.ensure_node u).ensure_node v).edges.map (fun e =>
          if e.1 == u && e.2.1 == v then (u, v, d) else e)
      else ((g.ensure_node u).ensure_node v).edges ++ [(u, v, d)] := by
  rw [Graph.add_edge]
  by_cases hany : ((g.ensure_node u).ensure_node v).edges.any
      (fun e => e.1 == u && e.2.1 == v) = true
  · rw [if_pos hany, if_pos hany]
  · rw [if_neg hany, if_neg hany]

/-- Lemma: replacing the matching edges in place makes the lookup for
that pair return the new edge, provided some edge matched. -/
theorem find?_replace_edges_self (u v : Int) (d : EdgeData) :
    ∀ es : List (Int × Int × EdgeData),
      es.any (fun e => e.1 == u && e.2.1 == v) = true →
      (es.map (fun e => if e.1 == u && e.2.1 == v then (u, v, d) else e)).find?
        (fun e => e.1 == u && e.2.1 == v) = some (u, v, d) := by
  intro es
  induction es with
  | nil => intro h; simp at h
  | cons e rest ih =>
    intro h
    by_cases hpe : (e.1 == u && e.2.1 == v) = true
    · rw [List.map_cons, if_pos hpe]
      simp only [List.find?]
      simp
    · have hpef : (e.1 == u && e.2.1 == v) = false := by
        simp only [Bool.not_eq_true] at hpe
        exact hpe
      rw [List.map_cons, if_neg hpe]
      simp only [List.find?, hpef]
      apply ih
      simp only [List.any_cons, hpef, Bool.false_or] at h
      exact h

/-- Lemma: appending the new edge makes the lookup for that pair return
it, provided no earlier edge matched. -/
theorem find?_append_edges_self (u v : Int) (d : EdgeData) :
    ∀ es : List (Int × Int × EdgeData),
      es.any (fun e => e.1 == u && e.2.1 == v) = false →
      (es ++ [(u, v, d)]).find? (fun e => e.1 == u && e.2.1 == v) =
        some (u, v, d) := by
  intro es
  induction es with
  | nil =>
    intro _
    rw [List.nil_append]
    simp only [List.find?]
    simp
  | cons e rest ih =>
    intro h
    simp only [List.any_cons, Bool.or_eq_false_iff] at h
    rw [List.cons_append]
    simp only [List.find?, h.1]
    exact ih h.2

/-- Lemma: replacing the edges matching the pair `(u, v)` does not
change the lookup result for a different pair `(a, b)`. -/
theorem find?_replace_edges_ne (u v a b : Int) (d : EdgeData)
    (hne : ¬(a = u ∧ b = v)) :
    ∀ es : List (Int × Int × EdgeData),
      (es.map (fun e => if e.1 == u && e.2.1 == v then (u, v, d) else e)).find?
        (fun e => e.1 == a && e.2.1 == b) =
      es.find? (fun e => e.1 == a && e.2.1 == b) := by
  have hq : ((u : Int) == a && (v : Int) == b) = false := by
    rw [Bool.eq_false_iff]
    intro hqt
    simp only [Bool.and_eq_true, beq_iff_eq] at hqt
    exact hne ⟨hqt.1.symm, hqt.2.symm⟩
  intro es
  induction es with
  | nil => rfl
  | cons e rest ih =>
    by_cases hpe : (e.1 == u && e.2.1 == v) = true
    · have hqe : (e.1 == a && e.2.1 == b) = false := by
        simp only [Bool.and_eq_true, beq_iff_eq] at hpe
        rw [Bool.eq_false_iff]
        intro hqt
        simp only [Bool.and_eq_true, beq_iff_eq] at hqt
        exact hne ⟨hqt.1.symm.trans hpe.1, hqt.2.symm.trans hpe.2⟩
      rw [List.map_cons, if_pos hpe]
      simp only [List.find?]
      rw [hq, hqe]
      exact ih
    · rw [List.map_cons, if_neg hpe]
      by_cases hqe : (e.1 == a && e.2.1 == b) = true
      · simp only [List.find?, hqe]
      · have hqef : (e.1 == a && e.2.1 == b) = false := by
          simp only [Bool.not_eq_true] at hqe
          exact hqe
        simp only [List.find?, hqef]
        exact ih

/-- Lemma: appending an edge for the pair `(u, v)` does not change the
lookup result for a different pair `(a, b)`. -/
theorem find?_append_edges_ne (u v a b : Int) (d : EdgeData)
    (hne : ¬(a = u ∧ b = v)) :
    ∀ es : List (Int × Int × EdgeData),
      (es ++ [(u, v, d)]).find? (fun e => e.1 == a && e.2.1 == b) =
        es.find? (fun e => e.1 == a && e.2.1 == b) := by
  have hq : ((u : Int) == a && (v : Int) == b) = false := by
    rw [Bool.eq_false_iff]
    intro hqt
    simp only [Bool.and_eq_true, beq_iff_eq] at hqt
    exact hne ⟨hqt.1.symm, hqt.2.symm⟩
  intro es
  induction es with
  | nil =>
    rw [List.nil_append]
    simp only [List.find?]
    rw [hq]
  | cons e rest ih =>
    rw [List.cons_append]
    by_cases hqe : (e.1 == a && e.2.1 == b) = true
    · simp only [List.find?, hqe]
    · have hqef : (e.1 == a && e.2.1 == b) = false := by
        simp only [Bool.not_eq_true] at hqe
        exact hqe
      simp only [List.find?, hqef]
      exact ih

/-- Lemma: after `add_edge u v d`, looking up `(u, v)` returns `d`. -/
theorem getEdge_add_edge_self (g : Graph) (u v : Int) (d : EdgeData) :
    (g.add_edge u v d).getEdge u v = some d := by
  rw [getEdge_def, edges_add_edge]
  by_cases hany : ((g.ensure_node u).ensure_node v).edges.any
      (fun e => e.1 == u && e.2.1 == v) = true
  · rw [if_pos hany, find?_replace_edges_self u v d _ hany]
    rfl
  · rw [if_neg hany,
      find?_append_edges_self u v d _ (by simp only [Bool.not_eq_true] at hany; exact hany)]
    rfl

/-- Lemma: `add_edge u v d` does not change the lookup of a different
pair `(a, b)`. -/
theorem getEdge_add_edge_ne (g : Graph) (u v a b : Int) (d : EdgeData)
    (hne : ¬(a = u ∧ b = v)) :
    (g.add_edge u v d).getEdge a b = g.getEdge a b := by
  rw [getEdge_def, getEdge_def, edges_add_edge]
  by_cases hany : ((g.ensure_node u).ensure_node v).edges.any
      (fun e => e.1 == u && e.2.1 == v) = true
  · rw [if_pos hany, find?_replace_edges_ne u v a b d hne,
      edges_ensure_node, edges_ensure_node]
  · rw [if_neg hany, find?_append_edges_ne u v a b d hne,
      edges_ensure_node, edges_ensure_node]

/-- Lemma: `add_edge` preserves the presence of any edge. -/
theorem getEdge_add_edge_isSome (g : Graph) (u v a b : Int) (d : EdgeData)
    (h : (g.getEdge a b).isSome = true) :
    ((g.add_edge u v d).getEdge a b).isSome = true := by
  by_cases hab : a = u ∧ b = v
  · rcases hab with ⟨ha, hb⟩
    subst ha
    subst hb
    rw [getEdge_add_edge_self]
    rfl
  · rw [getEdge_add_edge_ne g u v a b d hab]
    exact h

/-- The node-adding step folded by `build_air_route_graph` over the
airport rows. -/
def addAirport (g : Graph) (r : AirportRow) : Graph :=
  g.add_node r.id (some ⟨r.name, r.lat, r.lon⟩)

/-- The edge-adding step folded by `build_air_route_graph` over the
route rows. -/
def addRoute (g : Graph) (r : RouteRow) : Graph :=
  g.add_edge r.from_ r.to_
    ⟨r.distance_km, r.avg_duration_min, r.fuel_cost_l, r.congestion_factor⟩

/-- Lemma: `build_air_route_graph` is the composition of the two
folds. -/
theorem build_air_route_graph_def (airports : List AirportRow) (routes : List RouteRow) :
    build_air_route_graph airports routes =
      routes.foldl addRoute (airports.foldl addAirport ⟨[], []⟩) := rfl

/-- Lemma: membership in the ids after folding the airport rows. -/
theorem mem_nodeIds_foldl_airports :
    ∀ (as : List AirportRow) (g : Graph) (n : Int),
      n ∈ (as.foldl addAirport g).nodeIds ↔
        n ∈ g.nodeIds ∨ ∃ a ∈ as, a.id = n := by
  intro as
  induction as with
  | nil => intro g n; simp
  | cons a rest ih =>
    intro g n
    rw [List.foldl_cons, ih]
    rw [show addAirport g a = g.add_node a.id (some ⟨a.name, a.lat, a.lon⟩) from rfl,
      mem_nodeIds_add_node]
    constructor
    · rintro ((h | h) | ⟨x, hx, hid⟩)
      · exact Or.inl h
      · exact Or.inr ⟨a, List.mem_cons_self a rest, h.symm⟩
      · exact Or.inr ⟨x, List.mem_cons_of_mem a hx, hid⟩
    · rintro (h | ⟨x, hx, hid⟩)
      · exact Or.inl (Or.inl h)
      · rcases List.mem_cons.1 hx with hx | hx
        · subst hx
          exact Or.inl (Or.inr hid.symm)
        · exact Or.inr ⟨x, hx, hid⟩

/-- Lemma: membership in the ids after folding the route rows. -/
theorem mem_nodeIds_foldl_routes :
    ∀ (rs : List RouteRow) (g : Graph) (n : Int),
      n ∈ (rs.foldl addRoute g).nodeIds ↔
        n ∈ g.nodeIds ∨ ∃ r ∈ rs, r.from_ = n ∨ r.to_ = n := by
  intro rs
  induction rs with
  | nil => intro g n; simp
  | cons r rest ih =>
    intro g n
    rw [List.foldl_cons, ih]
    rw [show addRoute g r = g.add_edge r.from_ r.to_
      ⟨r.distance_km, r.avg_duration_min, r.fuel_cost_l, r.congestion_factor⟩ from rfl,
      mem_nodeIds_add_edge]
    constructor
    · rintro ((h | h | h) | ⟨x, hx, hid⟩)
      · exact Or.inl h
      · exact Or.inr ⟨r, List.mem_cons_self r rest, Or.inl h.symm⟩
      · exact Or.inr ⟨r, List.mem_cons_self r rest, Or.inr h.symm⟩
      · exact Or.inr ⟨x, List.mem_cons_of_mem r hx, hid⟩
    · rintro (h | ⟨x, hx, hid⟩)
      · exact Or.inl (Or.inl h)
      · rcases List.mem_cons.1 hx with hx | hx
        · subst hx
          rcases hid with hid | hid
          · exact Or.inl (Or.inr (Or.inl hid.symm))
          · exact Or.inl (Or.inr (Or.inr hid.symm))
        · exact Or.inr ⟨x, hx, hid⟩

/-- Lemma: folding route rows preserves the presence of an edge. -/
theorem isSome_getEdge_foldl_routes :
    ∀ (rs : List RouteRow) (g : Graph) (a b : Int),
      (g.getEdge a b).isSome = true →
      ((rs.foldl addRoute g).getEdge a b).isSome = true := by
  intro rs
  induction rs with
  | nil => intro g a b h; exact h
  | cons r rest ih =>
    intro g a b h
    rw [List.foldl_cons]
    exact ih _ a b (getEdge_add_edge_isSome g r.from_ r.to_ a b _ h)

/-- Lemma: every folded route row leaves a present edge for its pair. -/
theorem isSome_getEdge_foldl_routes_mem :
    ∀ (rs : List RouteRow) (g : Graph) (r : RouteRow), r ∈ rs →
      ((rs.foldl addRoute g).getEdge r.from_ r.to_).isSome = true := by
  intro rs
  induction rs with
  | nil => intro g r hr; simp at hr
  | cons r0 rest ih =>
    intro g r hr
    rw [List.foldl_cons]
    rcases List.mem_cons.1 hr with hr | hr
    · subst hr
      apply isSome_getEdge_foldl_routes rest
      rw [show addRoute g r = g.add_edge r.from_ r.to_
        ⟨r.distance_km, r.avg_duration_min, r.fuel_cost_l, r.congestion_factor⟩ from rfl,
        getEdge_add_edge_self]
      rfl
    · exact ih _ r hr

/-- Lemma: with pairwise-distinct ids none of which is already present,
folding the airport rows appends exactly the id list. -/
theorem nodeIds_foldl_airports_nodup :
    ∀ (as : List AirportRow) (g : Graph),
      (as.map AirportRow.id).Nodup → (∀ a ∈ as, a.id ∉ g.nodeIds) →
      (as.foldl addAirport g).nodeIds = g.nodeIds ++ as.map AirportRow.id := by
  intro as
  induction as with
  | nil => intro g _ _; simp
  | cons a rest ih =>
    intro g hnd hdisj
    rw [List.foldl_cons]
    have hmem : a.id ∉ g.nodeIds := hdisj a (List.mem_cons_self a rest)
    have hstep : (addAirport g a).nodeIds = g.nodeIds ++ [a.id] := by
      rw [show addAirport g a = g.add_node a.id (some ⟨a.name, a.lat, a.lon⟩) from rfl,
        nodeIds_add_node, if_neg hmem]
    rw [List.map_cons, List.nodup_cons] at hnd
    have hdisj2 : ∀ b ∈ rest, b.id ∉ (addAirport g a).nodeIds := by
      intro b hb
      rw [hstep, List.mem_append]
      rintro (h | h)
      · exact hdisj b (List.mem_cons_of_mem a hb) h
      · simp only [List.mem_singleton] at h
        exact hnd.1 (h ▸ List.mem_map_of_mem AirportRow.id hb)
    rw [ih (addAirport g a) hnd.2 hdisj2, hstep, List.map_cons, List.append_assoc]
    rfl

/-- Lemma: folding route rows whose endpoints are all present leaves the
node ids unchanged. -/
theorem nodeIds_foldl_routes_covered :
    ∀ (rs : List RouteRow) (g : Graph),
      (∀ r ∈ rs, r.from_ ∈ g.nodeIds ∧ r.to_ ∈ g.nodeIds) →
      (rs.foldl addRoute g).nodeIds = g.nodeIds := by
  intro rs
  induction rs with
  | nil => intro g _; rfl
  | cons r rest ih =>
    intro g hcov
    rw [List.foldl_cons]
    have hstep : (addRoute g r).nodeIds = g.nodeIds :=
      nodeIds_add_edge_of_mem g r.from_ r.to_ _
        (hcov r (List.mem_cons_self r rest)).1 (hcov r (List.mem_cons_self r rest)).2
    rw [ih (addRoute g r) (fun x hx => hstep ▸ hcov x (List.mem_cons_of_mem r hx)), hstep]

/-- Lemma: folding route rows none of which mentions the pair `(a, b)`
does not change the lookup of `(a, b)`. -/
theorem getEdge_foldl_routes_not_mem :
    ∀ (rs : List RouteRow) (g : Graph) (a b : Int),
      (∀ r ∈ rs, ¬(a = r.from_ ∧ b = r.to_)) →
      (rs.foldl addRoute g).getEdge a b = g.getEdge a b := by
  intro rs
  induction rs with
  | nil => intro g a b _; rfl
  | cons r rest ih =>
    intro g a b hne
    rw [List.foldl_cons, ih _ a b (fun x hx => hne x (List.mem_cons_of_mem r hx))]
    exact getEdge_add_edge_ne g r.from_ r.to_ a b _ (hne r (List.mem_cons_self r rest))

/-- Lemma: with pairwise-distinct (from, to) pairs, each folded route
row determines the final attributes of its edge. -/
theorem getEdge_foldl_routes_nodup :
    ∀ (rs : List RouteRow) (g : Graph),
      (rs.map (fun r => (r.from_, r.to_))).Nodup →
      ∀ r ∈ rs, (rs.foldl addRoute g).getEdge r.from_ r.to_ =
        some ⟨r.distance_km, r.avg_duration_min, r.fuel_cost_l, r.congestion_factor⟩ := by
  intro rs
  induction rs with
  | nil => intro g _ r hr; simp at hr
  | cons r0 rest ih =>
    intro g hnd r hr
    rw [List.map_cons, List.nodup_cons] at hnd
    rw [List.foldl_cons]
    rcases List.mem_cons.1 hr with hr | hr
    · subst hr
      rw [getEdge_foldl_routes_not_mem rest _ r.from_ r.to_ ?_]
      · rw [show addRoute g r = g.add_edge r.from_ r.to_
          ⟨r.distance_km, r.avg_duration_min, r.fuel_cost_l, r.congestion_factor⟩ from rfl,
          getEdge_add_edge_self]
      · intro x hx hcontra
        apply hnd.1
        have hxmem : (x.from_, x.to_) ∈ rest.map (fun r => (r.from_, r.to_)) :=
          List.mem_map_of_mem _ hx
        rw [← hcontra.1, ← hcontra.2] at hxmem
        exact hxmem
    · exact ih _ hnd.2 r hr

/-- C4 (amended): `build_air_route_graph` performs no validation and
never fails. Its node ids are exactly the airport ids together with all
route endpoints (an edge referencing an unlisted node implicitly creates
it; a duplicated id updates the existing node in place); every route row
leaves a present directed edge for its pair; when the airport ids are
distinct and cover all endpoints the node ids are exactly the given id
list, and when the (from, to) pairs are distinct each edge carries
exactly the four cost attributes of its row. -/
theorem build_graph_contents :
    (∀ (as : List AirportRow) (rs : List RouteRow) (n : Int),
      n ∈ (build_air_route_graph as rs).nodeIds ↔
        (∃ a ∈ as, a.id = n) ∨ ∃ r ∈ rs, r.from_ = n ∨ r.to_ = n) ∧
    (∀ (as : List AirportRow) (rs : List RouteRow) (r : RouteRow), r ∈ rs →
      ((build_air_route_graph as rs).getEdge r.from_ r.to_).isSome = true) ∧
    (∀ (as : List AirportRow) (rs : List RouteRow),
      (as.map AirportRow.id).Nodup →
      (∀ r ∈ rs, r.from_ ∈ as.map AirportRow.id ∧ r.to_ ∈ as.map AirportRow.id) →
      (build_air_route_graph as rs).nodeIds = as.map AirportRow.id) ∧
    (∀ (as : List AirportRow) (rs : List RouteRow),
      (rs.map (fun r => (r.from_, r.to_))).Nodup →
      ∀ r ∈ rs, (build_air_route_graph as rs).getEdge r.from_ r.to_ =
        some ⟨r.distance_km, r.avg_duration_min, r.fuel_cost_l, r.congestion_factor⟩) := by
  refine ⟨?_, ?_, ?_, ?_⟩
  · intro as rs n
    rw [build_air_route_graph_def, mem_nodeIds_foldl_routes, mem_nodeIds_foldl_airports]
    simp [Graph.nodeIds, or_assoc]
  · intro as rs r hr
    rw [build_air_route_graph_def]
    exact isSome_getEdge_foldl_routes_mem rs _ r hr
  · intro as rs hnd hcov
    rw [build_air_route_graph_def]
    have hbase : (as.foldl addAirport ⟨[], []⟩).nodeIds = as.map AirportRow.id := by
      rw [nodeIds_foldl_airports_nodup as _ hnd (fun a _ => by simp [Graph.nodeIds])]
      rw [show Graph.nodeIds ⟨[], []⟩ = [] from rfl, List.nil_append]
    rw [nodeIds_foldl_routes_covered rs _ (fun r hr => by rw [hbase]; exact hcov r hr),
      hbase]
  · intro as rs hnd r hr
    rw [build_air_route_graph_def]
    exact getEdge_foldl_routes_nodup rs _ hnd r hr

/-- Counterexample to C4 as stated: the builder does not fail. With node
list `[1]` and an edge `1 → 2` referencing the unknown node `2`, it
returns a graph whose ids are `[1, 2]` (node `2` silently created,
without attributes) and whose edge is present; with the id `1` listed
twice it returns a single node carrying the attributes of the second
row. No `DataError` exists. -/
theorem build_does_not_validate :
    (build_air_route_graph [⟨1, "A", 0, 0⟩] [⟨1, 2, 5, 6, 7, 0⟩]).nodeIds = [1, 2] ∧
    (build_air_route_graph [⟨1, "A", 0, 0⟩] [⟨1, 2, 5, 6, 7, 0⟩]).getEdge 1 2 =
      some ⟨5, 6, 7, 0⟩ ∧
    (build_air_route_graph [⟨1, "A", 0, 0⟩, ⟨1, "B", 2, 3⟩] []).nodes =
      [(1, some ⟨"B", 2, 3⟩)] :=
  ⟨by with_unfolding_all rfl, by with_unfolding_all rfl, by with_unfolding_all rfl⟩

/-- Witness for C4 (amended) on the concrete 4-node scenario: the ids
are exactly `[1, 2, 3, 4]` and the edge A→B carries its row
attributes. -/
theorem build_graph_contents_witness :
    (build_air_route_graph airports4 routes4).nodeIds =
      airports4.map AirportRow.id ∧
    (build_air_route_graph airports4 routes4).getEdge 1 2 =
      some ⟨100, 10, 20, 1/10⟩ :=
  ⟨build_graph_contents.2.2.1 airports4 routes4 (by decide) (by decide),
   build_graph_contents.2.2.2 airports4 routes4 (by decide)
     ⟨1, 2, 100, 10, 20, 1/10⟩ (List.Mem.head _)⟩
